import Mathlib

/-!
Verification of the linkedin-agent repository's natural-language specification
against a shallow embedding of its Python source.

Text is embedded as `List Char`.  Each `re.sub` call of
`LinkedInPostOutputParser._remove_markdown` is embedded as a left-to-right
scanner that, at every position of the input, attempts the (non-greedy,
backtracking) match the Python `re` engine would attempt there, replaces the
matched span, and resumes after it.  Character classes (`\w`, `\s`, `\d`) are
embedded in their ASCII fragment, which covers every string handled by the
claims; `str.upper`/`str.lower` are likewise embedded via the ASCII
`Char.toUpper`/`Char.toLower`.
-/

namespace LinkedInAgent

/-- Python `\w` (ASCII fragment): letters, digits, underscore. -/
def isWordChar (c : Char) : Bool :=
  c.isAlpha || c.isDigit || c = '_'

/-- Python `\s` (ASCII fragment): space, tab, newline, carriage return,
vertical tab, form feed. -/
def isSpaceChar (c : Char) : Bool :=
  c = ' ' || c = '\t' || c = '\n' || c = '\r' || c = '\u000b' || c = '\u000c'

/-- Python `str.strip()` with no argument: drop leading and trailing
whitespace. -/
def pyStrip (s : List Char) : List Char :=
  ((s.dropWhile isSpaceChar).reverse.dropWhile isSpaceChar).reverse

/-- A matcher for one `re.sub` pattern: given the character preceding the
current position in the string being scanned (`none` at the start of the
string; used by lookbehind `(?<!\w)` and by the MULTILINE anchor `^`) and the
remaining input, return `none` when the pattern does not match here, or
`some (replacement, matchedText, rest)` when it matches `matchedText` (a
nonempty prefix of the remaining input, with `rest` the part after it). -/
def TryFn : Type :=
  Option Char → List Char → Option (List Char × List Char × List Char)

/-- Lookbehind `(?<!\w)`: the previous character, if any, is not a word
character. -/
def notWordBefore : Option Char → Bool
  | none => true
  | some c => !isWordChar c

/-- MULTILINE anchor `^`: start of string or right after a newline. -/
def atLineStart : Option Char → Bool
  | none => true
  | some c => c = '\n'

/-- The character preceding the scan position after `matched` has been
consumed (Python's `re.sub` continues scanning the original string, so
lookbehinds see the last character of the matched text). -/
def prevAfter (matched : List Char) (prev : Option Char) : Option Char :=
  match matched.getLast? with
  | some c => some c
  | none => prev

/-- Embeds `re.sub` as a fuel-indexed left-to-right scan: at each position try the
matcher; on a match emit the replacement and resume after the matched text,
otherwise emit one character and advance.  Fuel `s.length + 1` always
suffices because every step consumes at least one character. -/
def runSub (t : TryFn) : Nat → Option Char → List Char → List Char
  | 0, _, s => s
  | n + 1, prev, s =>
    match t prev s with
    | some (repl, matched, rest) => repl ++ runSub t n (prevAfter matched prev) rest
    | none =>
      match s with
      | [] => []
      | c :: cs => c :: runSub t n (some c) cs

/-- Whether the scan of `runSub` would find a match anywhere. -/
def scanHasMatch (t : TryFn) : Nat → Option Char → List Char → Bool
  | 0, _, _ => false
  | n + 1, prev, s =>
    match t prev s with
    | some _ => true
    | none =>
      match s with
      | [] => false
      | c :: cs => scanHasMatch t n (some c) cs

/-- One whole `re.sub(pattern, repl, text)` call. -/
def applySub (t : TryFn) (s : List Char) : List Char :=
  runSub t (s.length + 1) none s

/-! ### The individual patterns of `_remove_markdown` -/

/-- Non-greedy search for the closing `**` of `re.sub(r'\*\*(.+?)\*\*', ...)`:
`acc` is the (reversed) content matched by `(.+?)` so far; close as early as
possible once the content is nonempty; `.` does not match a newline. -/
def boldInner : List Char → List Char → Option (List Char × List Char)
  | _, [] => none
  | acc, c :: cs =>
    if c = '*' ∧ cs.head? = some '*' ∧ acc ≠ [] then
      some (acc.reverse, cs.tail)
    else if c = '\n' then none
    else boldInner (c :: acc) cs

/-- Pattern `re.sub(r'\*\*(.+?)\*\*', lambda m: m.group(1).upper(), text)`:
bold markers removed, bold content upper-cased. -/
def boldTry : TryFn := fun _ s =>
  match s with
  | c₁ :: c₂ :: rest =>
    if c₁ = '*' ∧ c₂ = '*' then
      match boldInner [] rest with
      | some (content, rest') =>
        some (content.map Char.toUpper, '*' :: '*' :: (content ++ ['*', '*']), rest')
      | none => none
    else none
  | _ => none

/-- Non-greedy search for the closing `*` of `(?<!\w)\*(.+?)\*(?!\w)`:
the closing `*` must be followed by a non-word character or the end of the
string; otherwise that `*` is consumed as content (backtracking). -/
def starInner : List Char → List Char → Option (List Char × List Char)
  | _, [] => none
  | acc, c :: cs =>
    if c = '*' ∧ acc ≠ [] ∧ notWordBefore cs.head? then
      some (acc.reverse, cs)
    else if c = '\n' then none
    else starInner (c :: acc) cs

/-- Non-greedy search for the closing `_` of `_(.+?)_` (no lookarounds). -/
def underscoreInner : List Char → List Char → Option (List Char × List Char)
  | _, [] => none
  | acc, c :: cs =>
    if c = '_' ∧ acc ≠ [] then
      some (acc.reverse, cs)
    else if c = '\n' then none
    else underscoreInner (c :: acc) cs

/-- The second alternative `_(.+?)_` of the italic pattern. -/
def underscoreTry (s : List Char) : Option (List Char × List Char × List Char) :=
  match s with
  | c :: rest =>
    if c = '_' then
      match underscoreInner [] rest with
      | some (content, rest') => some (content, '_' :: (content ++ ['_']), rest')
      | none => none
    else none
  | [] => none

/-- Pattern `re.sub(r'(?<!\w)\*(.+?)\*(?!\w)|_(.+?)_', lambda m: m.group(1) or
m.group(2), text)`: italic markers removed, content kept.  The first
alternative is tried first; on failure the second alternative is tried at the
same position. -/
def italicTry : TryFn := fun prev s =>
  match s with
  | c :: rest =>
    if c = '*' ∧ notWordBefore prev then
      match starInner [] rest with
      | some (content, rest') => some (content, '*' :: (content ++ ['*']), rest')
      | none => underscoreTry s
    else underscoreTry s
  | [] => none

/-- Non-greedy search for the `\)` closing the URL part `\(.+?\)`. -/
def linkInner2 : List Char → List Char → Option (List Char × List Char)
  | _, [] => none
  | acc, c :: cs =>
    if c = ')' ∧ acc ≠ [] then
      some (acc.reverse, cs)
    else if c = '\n' then none
    else linkInner2 (c :: acc) cs

/-- Non-greedy search for `\]\(` closing the text part of
`\[(.+?)\]\(.+?\)`; if the URL part fails after a candidate `](`, the `]` is
consumed as text content (backtracking) and the search continues. -/
def linkInner1 : List Char → List Char → Option (List Char × List Char × List Char)
  | _, [] => none
  | acc, c :: cs =>
    if c = ']' ∧ cs.head? = some '(' ∧ acc ≠ [] then
      match linkInner2 [] cs.tail with
      | some (url, rest') => some (acc.reverse, url, rest')
      | none => linkInner1 (c :: acc) cs
    else if c = '\n' then none
    else linkInner1 (c :: acc) cs

/-- Pattern `re.sub(r'\[(.+?)\]\(.+?\)', r'\1', text)`: link syntax reduced to its
visible text. -/
def linkTry : TryFn := fun _ s =>
  match s with
  | c :: rest =>
    if c = '[' then
      match linkInner1 [] rest with
      | some (content, url, rest') =>
        some (content, '[' :: (content ++ ']' :: '(' :: (url ++ [')'])), rest')
      | none => none
    else none
  | [] => none

/-- Pattern `re.sub(r'(?<!\w)#(\w+)', r'#\1', text)`: each match `#word` is replaced
by `#\1 = #word`, i.e. by itself. -/
def hashtagTry : TryFn := fun prev s =>
  match s with
  | c :: rest =>
    if c = '#' ∧ notWordBefore prev then
      let w := rest.takeWhile isWordChar
      if w = [] then none
      else some ('#' :: w, '#' :: w, rest.dropWhile isWordChar)
    else none
  | [] => none

/-- Pattern `re.sub(r'`(.+?)`', r'\1', text)`: inline code markers stripped. -/
def backtickInner : List Char → List Char → Option (List Char × List Char)
  | _, [] => none
  | acc, c :: cs =>
    if c = '`' ∧ acc ≠ [] then
      some (acc.reverse, cs)
    else if c = '\n' then none
    else backtickInner (c :: acc) cs

/-- The backtick pattern matcher. -/
def backtickTry : TryFn := fun _ s =>
  match s with
  | c :: rest =>
    if c = '`' then
      match backtickInner [] rest with
      | some (content, rest') => some (content, '`' :: (content ++ ['`']), rest')
      | none => none
    else none
  | [] => none

/-- The replacement string of the bullet-point substitution.  The source file
(UTF-8) literally contains the three characters U+00E2 U+20AC U+00A2 — the
mojibake double-encoding of the bullet `•` — followed by a space. -/
def bulletReplacement : List Char := ['â', '€', '¢', ' ']

/-- Pattern `re.sub(r'^[-*+]\s+', 'â€¢ ', text, flags=re.MULTILINE)`: a bullet marker
at the start of a line, followed by a greedy maximal run of whitespace. -/
def bulletTry : TryFn := fun prev s =>
  match s with
  | c :: rest =>
    if (c = '-' ∨ c = '*' ∨ c = '+') ∧ atLineStart prev then
      let w := rest.takeWhile isSpaceChar
      if w = [] then none
      else some (bulletReplacement, c :: w, rest.dropWhile isSpaceChar)
    else none
  | [] => none

/-- Pattern `re.sub(r'^\d+\.\s+', '', text, flags=re.MULTILINE)`: a numbered-list
prefix at the start of a line is removed. -/
def numberedTry : TryFn := fun prev s =>
  if atLineStart prev then
    let ds := s.takeWhile Char.isDigit
    if ds = [] then none
    else
      match s.dropWhile Char.isDigit with
      | '.' :: rest =>
        let w := rest.takeWhile isSpaceChar
        if w = [] then none
        else some ([], ds ++ '.' :: w, rest.dropWhile isSpaceChar)
      | _ => none
  else none

/-- Pattern `re.sub(r'\n\x7b3,\x7d', '\n\n', text)`: each maximal run of three or
more newlines is replaced by exactly two.  `pending` counts the newlines of
the current run. -/
def collapseGo : Nat → List Char → List Char
  | pending, [] =>
    if pending ≥ 3 then ['\n', '\n'] else List.replicate pending '\n'
  | pending, c :: cs =>
    if c = '\n' then collapseGo (pending + 1) cs
    else
      (if pending ≥ 3 then ['\n', '\n'] else List.replicate pending '\n')
        ++ c :: collapseGo 0 cs

/-- The excess-blank-line substitution. -/
def collapseNewlines (s : List Char) : List Char :=
  collapseGo 0 s

/-- Source `LinkedInPostOutputParser._remove_markdown`: the fixed sequence of
substitutions of the source, followed by `str.strip()`. -/
def removeMarkdownL (s : List Char) : List Char :=
  pyStrip (collapseNewlines (applySub numberedTry (applySub bulletTry
    (applySub backtickTry (applySub hashtagTry (applySub linkTry
      (applySub italicTry (applySub boldTry s))))))))

/-- The `_remove_markdown` transform on `String`. -/
def removeMarkdownS (s : String) : String :=
  ⟨removeMarkdownL s.data⟩

/-! ### `LinkedInPostOutputParser.parse` -/

/-- Python `str.index(pat)`: the first position where `pat` occurs as a
substring, `none` when absent (where Python raises `ValueError`). -/
def findIndex? (pat : List Char) : List Char → Option Nat
  | [] => if pat = [] then some 0 else none
  | c :: cs =>
    if pat.isPrefixOf (c :: cs) then some 0
    else (findIndex? pat cs).map (· + 1)

/-- Python slice `s[a:b]` for nonnegative bounds: empty when `b ≤ a`. -/
def pySlice (s : List Char) (a b : Nat) : List Char :=
  (s.take b).drop a

/-- The start marker of `LinkedInPostOutputParser.parse`. -/
def startMarker : List Char := "[START_POST]".data

/-- The end marker of `LinkedInPostOutputParser.parse`. -/
def endMarker : List Char := "[END_POST]".data

/-- Source `LinkedInPostOutputParser.parse`: `start_idx = text.index(start_marker) +
len(start_marker)`, `end_idx = text.index(end_marker)` (searched from the
beginning of the whole text), `content = text[start_idx:end_idx].strip()`,
then `_remove_markdown(content)`; `None` when either `index` raises
`ValueError`. -/
def parseL (text : List Char) : Option (List Char) :=
  match findIndex? startMarker text, findIndex? endMarker text with
  | some i, some j =>
    some (removeMarkdownL (pyStrip (pySlice text (i + startMarker.length) j)))
  | _, _ => none

/-- The `parse` function on `String`. -/
def parseS (text : String) : Option String :=
  (parseL text.data).map fun l => ⟨l⟩

/-! ### Selection heuristics (`_select_news` of the two agents)

`json.loads(news_items)` — the candidate-article list — is passed in already
parsed, as an abstract list; the agents parse the same JSON text in both the
`try` branch and the fallback branch, so both see the same list. -/

/-- Decimal digits to a number. -/
def digitsToNat (ds : List Char) : Nat :=
  ds.foldl (fun n c => n * 10 + (c.toNat - '0'.toNat)) 0

/-- Python `int(s)` on a string: internal whitespace strip, optional sign,
then decimal digits (`None` models `ValueError`; numeric-literal underscores
are not modelled, no claim depends on them). -/
def pyIntParse? (s : List Char) : Option Int :=
  let t := pyStrip s
  let core : Option (Bool × List Char) :=
    match t with
    | '+' :: r => some (false, r)
    | '-' :: r => some (true, r)
    | r => some (false, r)
  match core with
  | some (neg, ds) =>
    if ds ≠ [] ∧ ds.all Char.isDigit then
      some (if neg then -(digitsToNat ds : Int) else (digitsToNat ds : Int))
    else none
  | none => none

/-- Python `l[i]` on a list: nonnegative indices from the front, negative
indices from the back, `none` models an `IndexError`. -/
def pyIndex? {α : Type} (l : List α) (i : Int) : Option α :=
  if 0 ≤ i ∧ i < (l.length : Int) then l.get? i.toNat
  else if -(l.length : Int) ≤ i ∧ i < 0 then l.get? ((l.length : Int) + i).toNat
  else none

/-- Source `LinkedInPostAgent._select_news` (single-index ranking): `int(response
.content.strip())`, index the candidate list, and on `ValueError` or
`IndexError` fall back to `news_items[0]` — which itself raises an uncaught
`IndexError` (modelled as `none`) when the candidate list is empty. -/
def selectNewsSingle {α : Type} (resp : List Char) (items : List α) : Option α :=
  match pyIntParse? (pyStrip resp) with
  | some i =>
    match pyIndex? items i with
    | some x => some x
    | none => items.head?
  | none => items.head?

/-- The opening of the fenced-code wrapper searched by
`re.search(r'```json\n(.*?)\n```', content, re.DOTALL)`. -/
def fenceOpen : List Char := "```json\n".data

/-- The closing of the fenced-code wrapper. -/
def fenceClose : List Char := "\n```".data

/-- Non-greedy `(.*?)` with DOTALL: the shortest body followed by the fence
closing. -/
def fencedBody : List Char → Option (List Char)
  | [] => none
  | c :: cs =>
    if fenceClose.isPrefixOf (c :: cs) then some []
    else (fencedBody cs).map (c :: ·)

/-- Embeds `re.search` for the fenced-code pattern: the first start position where
the whole pattern matches; the group is the body between the fences. -/
def fencedSearch : List Char → Option (List Char)
  | [] => if fenceOpen.isPrefixOf [] then fencedBody (List.drop fenceOpen.length []) else none
  | c :: cs =>
    if fenceOpen.isPrefixOf (c :: cs) then
      match fencedBody (List.drop fenceOpen.length (c :: cs)) with
      | some body => some body
      | none => fencedSearch cs
    else fencedSearch cs

/-- JSON whitespace. -/
def jsonWS (c : Char) : Bool :=
  c = ' ' || c = '\t' || c = '\n' || c = '\r'

/-- One JSON integer: optional minus, digits, no leading zero (except `0`
itself). -/
def jsonInt? (s : List Char) : Option (Int × List Char) :=
  let (neg, s₁) : Bool × List Char :=
    match s with
    | '-' :: r => (true, r)
    | r => (false, r)
  let ds := s₁.takeWhile Char.isDigit
  let rest := s₁.dropWhile Char.isDigit
  if ds = [] then none
  else if ds.length > 1 ∧ ds.head? = some '0' then none
  else some ((if neg then -(digitsToNat ds : Int) else (digitsToNat ds : Int)), rest)

/-- The elements after the first one: `, int` repeated, then `]`; `fuel`
bounds the iteration count (each step consumes at least one character, so the
caller's `length + 1` always suffices). -/
def jsonIntListRest : Nat → List Int → List Char → Option (List Int)
  | 0, _, _ => none
  | fuel + 1, acc, s =>
    match s.dropWhile jsonWS with
    | ']' :: r => if (r.dropWhile jsonWS) = [] then some acc.reverse else none
    | ',' :: r =>
      match jsonInt? (r.dropWhile jsonWS) with
      | some (i, rest) => jsonIntListRest fuel (i :: acc) rest
      | none => none
    | _ => none

/-- Models `json.loads(content)` restricted to the integer-array fragment the
selection heuristics expect; any input outside this fragment is modelled as a
parse failure (the agents catch `ValueError`/`json.JSONDecodeError`
uniformly).  No claim involves a response that is valid non-integer-array
JSON. -/
def jsonIntList? (content : List Char) : Option (List Int) :=
  match content.dropWhile jsonWS with
  | '[' :: r =>
    match r.dropWhile jsonWS with
    | ']' :: r' => if (r'.dropWhile jsonWS) = [] then some [] else none
    | r₁ =>
      match jsonInt? r₁ with
      | some (i, rest) => jsonIntListRest (rest.length + 1) [i] rest
      | none => none
  | _ => none

/-- The content `LinkedInResearchAgent._select_news` feeds to `json.loads`:
`content = response.content.strip()`, a fenced-code wrapper extracted (and
stripped) when `re.search` finds one. -/
def rankingContent (resp : List Char) : List Char :=
  match fencedSearch (pyStrip resp) with
  | some body => pyStrip body
  | none => pyStrip resp

/-- The index list `LinkedInResearchAgent._select_news` recovers from the
response, `none` on parse failure. -/
def parsedIndices (resp : List Char) : Option (List Int) :=
  jsonIntList? (rankingContent resp)

/-- Source `LinkedInResearchAgent._select_news` (multi-index ranking): parse the
response as a JSON index array and take `[news_items_list[idx] for idx in
selected_indices if idx < len(news_items_list)]`; on `ValueError`,
`json.JSONDecodeError` or `IndexError` (an index below `-len`, the only way
the guarded comprehension raises) fall back to the first
`min(7, len(news_items_list))` items. -/
def selectNewsMulti {α : Type} (resp : List Char) (items : List α) : List α :=
  match parsedIndices resp with
  | some idxs =>
    if idxs.any (fun i => i < -(items.length : Int)) then
      items.take (min 7 items.length)
    else
      (idxs.filter (fun i => i < (items.length : Int))).filterMap (pyIndex? items)
  | none => items.take (min 7 items.length)

/-! ### `LinkedInResearchAgent._write_post` retry loop -/

/-- Python `str.lower()` (ASCII fragment). -/
def pyLower (s : List Char) : List Char :=
  s.map Char.toLower

/-- Condition `"quota" in str(e).lower()`: the retry condition of `_write_post`
(substring containment, via the same first-occurrence search as
`str.index`). -/
def isQuotaError (e : List Char) : Bool :=
  (findIndex? "quota".data (pyLower e)).isSome

/-- One plan entry's `for attempt in range(max_retries)` loop: the pipeline
invocation is modelled as a function from the attempt number to its outcome
(`Except` error text).  Returns the recorded `post_content` (`none` for the
recorded `None`) and the total seconds slept.  `fuel` is the number of
remaining loop iterations, `maxRetries - attempt`. -/
def writeRetryGo {α : Type} (pipeline : Nat → Except (List Char) α)
    (maxRetries baseDelay : Nat) : Nat → Nat → Option α × Nat
  | _, 0 => (none, 0)
  | attempt, fuel + 1 =>
    match pipeline attempt with
    | .ok x => (some x, 0)
    | .error e =>
      if isQuotaError e ∧ attempt + 1 < maxRetries then
        let r := writeRetryGo pipeline maxRetries baseDelay (attempt + 1) fuel
        (r.1, baseDelay + r.2)
      else (none, 0)

/-- The retry wrapper with the source's constants `max_retries = 3`,
`base_delay = 60`. -/
def writeRetry {α : Type} (pipeline : Nat → Except (List Char) α) : Option α × Nat :=
  writeRetryGo pipeline 3 60 0 3

/-- The batch loop `for plan in tqdm(posting_plans)`: each entry is processed
by its own wrapped invocation; every exception is caught inside the loop
body, so the iteration is a total map. -/
def writePostBatch {α : Type} (pipelines : List (Nat → Except (List Char) α)) :
    List (Option α) :=
  pipelines.map fun p => (writeRetry p).1

/-! ### `_generate_post` error behaviour -/

/-- A surfaced Python exception of the post-generation step. -/
inductive PyExn : Type
  | typeError : PyExn
  | valueError : PyExn
deriving DecidableEq

/-- Source `LinkedInPostAgent._generate_post` after the LLM call: `post_content =
LinkedInPostOutputParser.parse(response.content)`, then `post_content =
post_content + "\n\n" + link` — which raises a `TypeError` when `parse`
returned `None`, before the `if post_content is None: raise ValueError`
guard (that guard is unreachable). -/
def generatePostStep (respContent : List Char) (selectedLink : List Char) :
    Except PyExn (List Char) :=
  match parseL respContent with
  | some p => .ok (p ++ '\n' :: '\n' :: selectedLink)
  | none => .error .typeError

/-! ### The compiled workflow graphs (`_create_workflow`) -/

/-- LangGraph's terminal pseudo-node `END`. -/
def langgraphEnd : String := "__end__"

/-- The nodes added by `LinkedInPostAgent._create_workflow` (the
`post_to_linkedin` node is commented out in the source). -/
def postWorkflowNodes : List String :=
  ["search", "analyze", "select_news", "generate_post"]

/-- The edges added by `LinkedInPostAgent._create_workflow` (the edge
`generate_post → post_to_linkedin` is commented out in the source;
`generate_post` goes to `END`). -/
def postWorkflowEdges : List (String × String) :=
  [("search", "analyze"), ("analyze", "select_news"),
   ("select_news", "generate_post"), ("generate_post", langgraphEnd)]

/-- The entry point of the single-post workflow. -/
def postWorkflowEntry : String := "search"

/-- The nodes added by `LinkedInResearchAgent._create_workflow`. -/
def researchWorkflowNodes : List String :=
  ["scrape", "select_news", "plan_posts", "write_post", "save_to_database"]

/-- The edges added by `LinkedInResearchAgent._create_workflow`. -/
def researchWorkflowEdges : List (String × String) :=
  [("scrape", "select_news"), ("select_news", "plan_posts"),
   ("plan_posts", "write_post"), ("write_post", "save_to_database"),
   ("save_to_database", langgraphEnd)]

/-- The entry point of the research workflow. -/
def researchWorkflowEntry : String := "scrape"

/-! ### The argument `_write_post` passes to `LinkedInPostAgent.run` -/

/-- A Python value that can sit in the `topic` position: either a string or
the `PostAgentState` dict that `_write_post` builds. -/
inductive TopicValue : Type
  | str : String → TopicValue
  | stateDict : List String → TopicValue → String → TopicValue
deriving DecidableEq

/-- The initial state `LinkedInPostAgent.run` builds from its `topic`
argument: messages `[]`, topic the argument as given, next step `search`. -/
structure RunInitialState : Type where
  messages : List String
  topic : TopicValue
  nextStep : String
deriving DecidableEq

/-- Source `LinkedInPostAgent.run(topic)`: the initial state of the workflow
invocation. -/
def postAgentRunInitialState (topic : TopicValue) : RunInitialState :=
  { messages := [], topic := topic, nextStep := "search" }

/-- The `post_agent_state` dict `LinkedInResearchAgent._write_post` builds
for a plan entry with title `title`, and which it then passes — whole — as
the `topic` argument of `post_agent.run`. -/
def writePostRunArgument (title : String) : TopicValue :=
  .stateDict [] (.str title) "search"

/-- The initial state of the single-post pipeline invocation made by the
batch write loop for a plan entry with title `title`. -/
def writePostInvocationState (title : String) : RunInitialState :=
  postAgentRunInitialState (writePostRunArgument title)

/-! ### `LinkedInResearchAgent` topics state (`__init__` / `run`) -/

/-- The configuration state of a `LinkedInResearchAgent` instance relevant
to topic selection. -/
structure ResearchAgentConfig : Type where
  topics : List String
deriving DecidableEq

/-- Constructor `__init__`: `self.topics = topics or ["artificial-intelligence"]` —
Python truthiness, so both `None` and `[]` yield the default. -/
def researchAgentInit (topics : Option (List String)) : ResearchAgentConfig :=
  { topics :=
      match topics with
      | some ts => if ts = [] then ["artificial-intelligence"] else ts
      | none => ["artificial-intelligence"] }

/-- Source `LinkedInResearchAgent.run(topics)`: `if topics: self.topics = topics`
(truthiness again), then the workflow scrapes using `self.topics`.  Returns
the updated instance state and the topics the scrape step uses. -/
def researchAgentRun (cfg : ResearchAgentConfig) (topics : Option (List String)) :
    ResearchAgentConfig × List String :=
  let cfg' :=
    match topics with
    | some ts => if ts = [] then cfg else { cfg with topics := ts }
    | none => cfg
  (cfg', cfg'.topics)

/-! ### Spec-side descriptions used to state claims -/

/-- The linear chain the single-post sequencer is claimed to follow, amended
to the graph the source actually builds (`post_to_linkedin` is commented
out): `search → analyze → select_news → generate_post → END`. -/
def postChainNext (s : String) : Option String :=
  if s = "search" then some "analyze"
  else if s = "analyze" then some "select_news"
  else if s = "select_news" then some "generate_post"
  else if s = "generate_post" then some langgraphEnd
  else none

/-- The linear chain of the research/batch sequencer:
`scrape → select_news → plan_posts → write_post → save_to_database → END`. -/
def researchChainNext (s : String) : Option String :=
  if s = "scrape" then some "select_news"
  else if s = "select_news" then some "plan_posts"
  else if s = "plan_posts" then some "write_post"
  else if s = "write_post" then some "save_to_database"
  else if s = "save_to_database" then some langgraphEnd
  else none

/-- Three consecutive newlines: the shortest text matched by the
blank-line-collapsing pattern. -/
def tripleNewline : List Char := ['\n', '\n', '\n']

/-- A text with "no Markdown left": none of the markdown substitution
patterns matches anywhere (hashtag matches are allowed — that substitution
replaces each match by itself), no run of three or more newlines occurs, and
the text carries no leading or trailing whitespace.  This is the
"already-cleaned" hypothesis of the idempotence property, and it is a
decidable predicate. -/
def cleanedText (t : List Char) : Prop :=
  scanHasMatch boldTry (t.length + 1) none t = false ∧
  scanHasMatch italicTry (t.length + 1) none t = false ∧
  scanHasMatch linkTry (t.length + 1) none t = false ∧
  scanHasMatch backtickTry (t.length + 1) none t = false ∧
  scanHasMatch bulletTry (t.length + 1) none t = false ∧
  scanHasMatch numberedTry (t.length + 1) none t = false ∧
  findIndex? tripleNewline t = none ∧
  pyStrip t = t

instance (t : List Char) : Decidable (cleanedText t) := by
  unfold cleanedText
  infer_instance

/-! ## Helper lemmas -/

theorem findIndex?_eq_none_iff {pat t : List Char} :
    findIndex? pat t = none ↔ ∀ p : Nat, ¬ pat <+: t.drop p := by
  induction t with
  | nil =>
    constructor
    · intro h p hp
      rw [List.drop_nil] at hp
      rw [List.prefix_nil.mp hp] at h
      simp [findIndex?] at h
    · intro h
      have h0 := h 0
      rw [List.drop_nil] at h0
      have hne : ¬ pat = [] := fun he => h0 (he ▸ List.nil_prefix)
      simp [findIndex?, hne]
  | cons c cs ih =>
    cases hpre : pat.isPrefixOf (c :: cs) with
    | true =>
      constructor
      · intro h
        simp [findIndex?, hpre] at h
      · intro h
        exact absurd ( List.isPrefixOf_iff_prefix.mp hpre) (by simpa using h 0)
    | false =>
      have hnp : ¬ pat <+: (c :: cs) := fun hx =>
        by simp [ List.isPrefixOf_iff_prefix.mpr hx] at hpre
      simp only [findIndex?, hpre, Bool.false_eq_true, if_false, Option.map_eq_none']
      rw [ih]
      constructor
      · intro h p
        cases p with
        | zero => simpa using hnp
        | succ q => simpa [List.drop_succ_cons] using h q
      · intro h q
        simpa [List.drop_succ_cons] using h (q + 1)

theorem findIndex?_eq_some {pat t : List Char} {p : Nat}
    (h1 : pat <+: t.drop p) (h2 : ∀ q, q < p → ¬ pat <+: t.drop q) :
    findIndex? pat t = some p := by
  induction t generalizing p with
  | nil =>
    rw [List.drop_nil] at h1
    have hpat := List.prefix_nil.mp h1
    cases p with
    | zero => subst hpat; simp [findIndex?]
    | succ q =>
      exact absurd (by rw [hpat, List.drop_nil] : pat <+: ([] : List Char).drop 0)
        (h2 0 (Nat.succ_pos q))
  | cons c cs ih =>
    cases p with
    | zero =>
      rw [List.drop_zero] at h1
      simp [findIndex?, List.isPrefixOf_iff_prefix.mpr h1]
    | succ q =>
      have h0 : ¬ pat <+: (c :: cs) := by simpa using h2 0 (Nat.succ_pos q)
      have hb : pat.isPrefixOf (c :: cs) = false := by
        cases hx : pat.isPrefixOf (c :: cs) with
        | false => rfl
        | true => exact absurd ( List.isPrefixOf_iff_prefix.mp hx) h0
      have hrec := ih (by simpa [List.drop_succ_cons] using h1)
        (fun r hr => by simpa [List.drop_succ_cons] using h2 (r + 1) (Nat.succ_lt_succ hr))
      simp [findIndex?, hb, hrec]

theorem infix_of_prefix_drop {pat t : List Char} {p : Nat}
    (h : pat <+: t.drop p) : pat <:+: t := by
  obtain ⟨r, hr⟩ := h
  exact ⟨t.take p, r, by rw [List.append_assoc, hr, List.take_append_drop]⟩

theorem findIndex?_none_of_no_occurrence {pat t : List Char}
    (h : ¬ pat <:+: t) : findIndex? pat t = none :=
  findIndex?_eq_none_iff.mpr fun _ hp => h (infix_of_prefix_drop hp)

theorem pySlice_middle (a b c : List Char) :
    pySlice (a ++ b ++ c) a.length (a.length + b.length) = b := by
  unfold pySlice
  rw [List.take_left' (by simp), List.drop_left]

/-! ## Claims -/

/-- C1 counterexample: the end marker is searched from the beginning of the
whole text, not after the start marker.  On
`"[END_POST][START_POST]hi[END_POST]"` the first end marker precedes the
start marker, the slice is empty, and the parser returns the empty string —
not `"hi"`, the trimmed substring between the start marker and the first end
marker after it. -/
theorem c1_counterexample :
    parseS "[END_POST][START_POST]hi[END_POST]" = some "" ∧
    parseS "[END_POST][START_POST]hi[END_POST]" ≠ some "hi" := by
  constructor
  · decide
  · decide

/-- C1 (amended): the parser locates the first occurrence of the start
marker and the first occurrence of the end marker in the whole text (not
necessarily after the start marker), and returns the trimmed,
markdown-cleaned substring between those positions; if either marker is
absent it returns `none` without raising; adjacent markers
(`[START_POST][END_POST]`) yield the empty string. -/
theorem c1_parse_first_occurrences :
    (∀ t : List Char, ¬ startMarker <:+: t → parseL t = none) ∧
    (∀ t : List Char, ¬ endMarker <:+: t → parseL t = none) ∧
    (∀ pre mid post : List Char,
      (∀ q, q < pre.length →
        ¬ startMarker <+: ((pre ++ startMarker ++ mid ++ endMarker ++ post).drop q)) →
      (∀ q, q < pre.length + startMarker.length + mid.length →
        ¬ endMarker <+: ((pre ++ startMarker ++ mid ++ endMarker ++ post).drop q)) →
      parseL (pre ++ startMarker ++ mid ++ endMarker ++ post) =
        some (removeMarkdownL (pyStrip mid))) ∧
    parseL ("[START_POST][END_POST]".data) = some [] := by
  refine ⟨?_, ?_, ?_, by decide⟩
  · intro t h
    rw [parseL, findIndex?_none_of_no_occurrence h]
  · intro t h
    rw [parseL, findIndex?_none_of_no_occurrence h]
    cases findIndex? startMarker t <;> rfl
  · intro pre mid post hstart hend
    have hs : findIndex? startMarker (pre ++ startMarker ++ mid ++ endMarker ++ post) =
        some pre.length := by
      refine findIndex?_eq_some ?_ hstart
      have : (pre ++ startMarker ++ mid ++ endMarker ++ post).drop pre.length =
          startMarker ++ (mid ++ endMarker ++ post) := by
        simp only [List.append_assoc]
        rw [List.drop_left]
      rw [this]
      exact List.prefix_append _ _
    have he : findIndex? endMarker (pre ++ startMarker ++ mid ++ endMarker ++ post) =
        some (pre.length + startMarker.length + mid.length) := by
      refine findIndex?_eq_some ?_ hend
      have hassoc : pre ++ startMarker ++ mid ++ endMarker ++ post =
          (pre ++ startMarker ++ mid) ++ (endMarker ++ post) := by
        simp [List.append_assoc]
      have hd : (pre ++ startMarker ++ mid ++ endMarker ++ post).drop
          (pre.length + startMarker.length + mid.length) = endMarker ++ post := by
        rw [hassoc, List.drop_left' (by simp only [List.length_append])]
      rw [hd]
      exact List.prefix_append _ _
    have hmid : pySlice (pre ++ startMarker ++ mid ++ endMarker ++ post)
        (pre.length + startMarker.length)
        (pre.length + startMarker.length + mid.length) = mid := by
      have h1 : pre ++ startMarker ++ mid ++ endMarker ++ post =
          (pre ++ startMarker) ++ mid ++ (endMarker ++ post) := by
        simp [List.append_assoc]
      have h2 : pre.length + startMarker.length = (pre ++ startMarker).length := by
        simp
      rw [h1, h2, pySlice_middle]
    rw [parseL, hs, he]
    dsimp only
    rw [hmid]

/-- C1 witness: the amended extraction law applied to the concrete text
`"A [START_POST]hi[END_POST] B"`. -/
theorem c1_parse_first_occurrences_witness :
    parseL ("A [START_POST]hi[END_POST] B".data) = some ("hi".data) := by
  have h := c1_parse_first_occurrences.2.2.1 "A ".data "hi".data " B".data
    (by decide) (by decide)
  have heq : "A ".data ++ startMarker ++ "hi".data ++ endMarker ++ " B".data =
      "A [START_POST]hi[END_POST] B".data := by decide
  have hmid : removeMarkdownL (pyStrip "hi".data) = "hi".data := by decide
  rw [heq, hmid] at h
  exact h

/-- C2 counterexample: an out-of-range index in multi-index mode does not
trigger the first-min(7,length) fallback — it is excluded individually.  The
well-formed response `[15]` over a 10-item list yields the empty selection,
not items 0–6. -/
theorem c2_counterexample :
    selectNewsMulti "[15]".data (List.range 10) = [] ∧
    (List.range 10).take (min 7 (List.range 10).length) = [0, 1, 2, 3, 4, 5, 6] ∧
    ([] : List Nat) ≠ [0, 1, 2, 3, 4, 5, 6] := by
  refine ⟨by decide, by decide, by decide⟩

/-- C2 (amended): on any parse failure the selection falls back
deterministically — single-index mode to the item at index 0 (for a
non-empty candidate list), multi-index mode to the first min(7, length)
items; an out-of-range index in single-index mode raises `IndexError` and
also falls back to index 0, while in multi-index mode out-of-range indices
are excluded individually, so an index array that is entirely out of range
yields the empty selection rather than the fallback. -/
theorem c2_selection_fallback :
    (∀ (α : Type) (l : List α) (r : List Char) (h : l ≠ []),
      pyIntParse? (pyStrip r) = none → selectNewsSingle r l = some (l.head h)) ∧
    (∀ (α : Type) (l : List α) (r : List Char) (h : l ≠ []) (i : Int),
      pyIntParse? (pyStrip r) = some i → pyIndex? l i = none →
      selectNewsSingle r l = some (l.head h)) ∧
    (∀ (α : Type) (l : List α) (r : List Char),
      parsedIndices r = none → selectNewsMulti r l = l.take (min 7 l.length)) ∧
    (∀ (α : Type) (l : List α) (r : List Char) (idxs : List Int),
      parsedIndices r = some idxs → (∀ i ∈ idxs, (l.length : Int) ≤ i) →
      selectNewsMulti r l = []) := by
  refine ⟨?_, ?_, ?_, ?_⟩
  · intro α l r h hp
    unfold selectNewsSingle
    rw [hp]
    exact List.head?_eq_head h
  · intro α l r h i hp hidx
    unfold selectNewsSingle
    rw [hp]
    dsimp only
    rw [hidx]
    exact List.head?_eq_head h
  · intro α l r hp
    unfold selectNewsMulti
    rw [hp]
  · intro α l r idxs hp hge
    unfold selectNewsMulti
    rw [hp]
    dsimp only
    have hany : (idxs.any fun i => decide (i < -(l.length : Int))) = false := by
      rw [List.any_eq_false]
      intro i hi
      have hgi := hge i hi
      simp only [decide_eq_true_eq]
      omega
    have hfil : (idxs.filter fun i => decide (i < (l.length : Int))) = [] := by
      rw [List.filter_eq_nil_iff]
      intro i hi
      have hgi := hge i hi
      simp only [decide_eq_true_eq]
      omega
    simp only [hany, Bool.false_eq_true, if_false, hfil, List.filterMap_nil]

/-- C2 witness: the amended fallback behaviour at concrete inputs —
a malformed response over a 5-item list (single-index, item 0), an
out-of-range single index (item 0), a malformed response over a 10-item
list (multi-index, items 0–6), and a fully out-of-range multi-index array
(empty selection). -/
theorem c2_selection_fallback_witness :
    selectNewsSingle "garbage".data [10, 20, 30, 40, 50] = some 10 ∧
    selectNewsSingle "7".data [10, 20, 30, 40, 50] = some 10 ∧
    selectNewsMulti "zz".data (List.range 10) = [0, 1, 2, 3, 4, 5, 6] ∧
    selectNewsMulti "[15]".data ([5, 6] : List Nat) = [] := by
  refine ⟨?_, ?_, ?_, ?_⟩
  · have h := c2_selection_fallback.1 Nat [10, 20, 30, 40, 50] "garbage".data
      (by decide) (by decide)
    rw [h]
    rfl
  · have h := c2_selection_fallback.2.1 Nat [10, 20, 30, 40, 50] "7".data
      (by decide) 7 (by decide) (by decide)
    rw [h]
    rfl
  · have h := c2_selection_fallback.2.2.1 Nat (List.range 10) "zz".data (by decide)
    rw [h]; decide
  · exact c2_selection_fallback.2.2.2 Nat [5, 6] "[15]".data [15] (by decide) (by decide)

/-- C9: when the candidate list is empty, single-index selection cannot fall
back — the fallback path itself indexes the empty list at position 0, and
that `IndexError` (modelled as `none`) escapes uncaught, for every response
text. -/
theorem c9_single_fallback_crashes_on_empty :
    ∀ (α : Type) (r : List Char), selectNewsSingle r ([] : List α) = none := by
  intro α r
  unfold selectNewsSingle
  cases pyIntParse? (pyStrip r) with
  | none => rfl
  | some i =>
    have hidx : pyIndex? ([] : List α) i = none := by
      unfold pyIndex?
      simp only [List.length_nil, Nat.cast_zero]
      rw [if_neg (by omega), if_neg (by omega)]
    dsimp only
    rw [hidx]
    rfl

/-- C3: the batch write loop retries each per-item pipeline invocation at
most 3 times with a fixed 60-second pause between attempts, retrying only
when the error text contains "quota" case-insensitively; any other error, or
exhaustion of the 3 attempts, records `None` for the entry; the batch maps
over all entries, so one failing item never aborts it; a pipeline that
raises quota errors exactly twice and then succeeds has its success
recorded. -/
theorem c3_write_retry :
    (∀ (α : Type) (p : Nat → Except (List Char) α) (e₀ e₁ : List Char) (x : α),
      p 0 = .error e₀ → isQuotaError e₀ = true →
      p 1 = .error e₁ → isQuotaError e₁ = true →
      p 2 = .ok x → writeRetry p = (some x, 120)) ∧
    (∀ (α : Type) (p : Nat → Except (List Char) α),
      (∀ n, n < 3 → ∃ e, p n = .error e ∧ isQuotaError e = true) →
      writeRetry p = (none, 120)) ∧
    (∀ (α : Type) (p : Nat → Except (List Char) α) (e : List Char),
      p 0 = .error e → isQuotaError e = false → writeRetry p = (none, 0)) ∧
    (∀ (α : Type) (ps : List (Nat → Except (List Char) α)),
      (writePostBatch ps).length = ps.length) ∧
    (∀ (α : Type) (p : Nat → Except (List Char) α)
      (ps : List (Nat → Except (List Char) α)),
      writePostBatch (p :: ps) = (writeRetry p).1 :: writePostBatch ps) := by
  refine ⟨?_, ?_, ?_, ?_, ?_⟩
  · intro α p e₀ e₁ x h0 hq0 h1 hq1 h2
    simp [writeRetry, writeRetryGo, h0, h1, h2, hq0, hq1]
  · intro α p h
    obtain ⟨e₀, h0, hq0⟩ := h 0 (by omega)
    obtain ⟨e₁, h1, hq1⟩ := h 1 (by omega)
    obtain ⟨e₂, h2, hq2⟩ := h 2 (by omega)
    simp [writeRetry, writeRetryGo, h0, h1, h2, hq0, hq1, hq2]
  · intro α p e h0 hq0
    simp [writeRetry, writeRetryGo, h0, hq0]
  · intro α ps
    simp [writePostBatch]
  · intro α p ps
    simp [writePostBatch]

/-- C3 witness: a pipeline raising "API quota exceeded" on the first two
attempts and succeeding on the third is recorded with its success and 120
seconds of sleep; a pipeline always raising "QUOTA exceeded" records `none`
after 3 attempts; a pipeline raising a non-quota error records `none`
without sleeping; and the batch over those three pipelines has one recorded
entry per item. -/
theorem c3_write_retry_witness :
    writeRetry (fun n => if n < 2 then .error "API quota exceeded".data
      else .ok (7 : Nat)) = (some 7, 120) ∧
    writeRetry (fun _ => (.error "QUOTA exceeded".data : Except (List Char) Nat)) =
      (none, 120) ∧
    writeRetry (fun _ => (.error "boom".data : Except (List Char) Nat)) = (none, 0) ∧
    (writePostBatch [fun _ => (.error "boom".data : Except (List Char) Nat)]).length = 1 := by
  refine ⟨?_, ?_, ?_, ?_⟩
  · exact c3_write_retry.1 Nat _ "API quota exceeded".data "API quota exceeded".data 7
      rfl (by decide) rfl (by decide) rfl
  · exact c3_write_retry.2.1 Nat _
      (fun n _ => ⟨"QUOTA exceeded".data, rfl, by decide⟩)
  · exact c3_write_retry.2.2.1 Nat _ "boom".data rfl (by decide)
  · exact c3_write_retry.2.2.2.1 Nat _

/-- C4 counterexample: an LLM response in which the output parser finds no
markers is surfaced as an error by the post-generation step — the
concatenation `post_content + "\n\n" + link` raises a `TypeError` on the
`None` returned by the parser (before the explicit `ValueError` guard is
reached) — contradicting "never surfaced as an error to the caller". -/
theorem c4_counterexample :
    generatePostStep "hello".data "http://l".data = .error .typeError := by
  rfl

/-- C4 (amended): a ranking response that fails to parse is handled locally
by the deterministic index-0 fallback and not surfaced; but a
post-generation response without `[START_POST]`/`[END_POST]` markers is
surfaced as an exception (a `TypeError` raised by concatenating the parser's
`None` with the link suffix); a response with markers yields the parsed post
with the selected link appended. -/
theorem c4_malformed_output_handling :
    (∀ (α : Type) (l : List α) (r : List Char) (h : l ≠ []),
      pyIntParse? (pyStrip r) = none → selectNewsSingle r l = some (l.head h)) ∧
    (∀ resp link p : List Char, parseL resp = some p →
      generatePostStep resp link = .ok (p ++ '\n' :: '\n' :: link)) ∧
    (∀ resp link : List Char, parseL resp = none →
      generatePostStep resp link = .error .typeError) := by
  refine ⟨?_, ?_, ?_⟩
  · intro α l r h hp
    unfold selectNewsSingle
    rw [hp]
    exact List.head?_eq_head h
  · intro resp link p hp
    unfold generatePostStep
    rw [hp]
  · intro resp link hp
    unfold generatePostStep
    rw [hp]

/-- C4 witness: the amended behaviour at concrete inputs — a malformed
ranking response falls back to item 0; a marker-less generation response is
surfaced as a `TypeError`; a well-formed one succeeds. -/
theorem c4_malformed_output_handling_witness :
    selectNewsSingle "not a number".data [3, 1, 4] = some 3 ∧
    generatePostStep "no markers at all".data "L".data = .error .typeError ∧
    generatePostStep "[START_POST]hi[END_POST]".data "L".data =
      .ok ("hi".data ++ '\n' :: '\n' :: "L".data) := by
  refine ⟨?_, ?_, ?_⟩
  · have h := c4_malformed_output_handling.1 Nat [3, 1, 4] "not a number".data
      (by decide) (by decide)
    rw [h]
    rfl
  · exact c4_malformed_output_handling.2.2 "no markers at all".data "L".data (by decide)
  · have h := c4_malformed_output_handling.2.1 "[START_POST]hi[END_POST]".data
      "L".data "hi".data (by decide)
    exact h

/-- C5 counterexample: the single-post workflow does not contain the claimed
`generate_post → post_to_linkedin` transition — the `post_to_linkedin` node
and its edge are commented out in `_create_workflow`, and `generate_post`
goes directly to `END`. -/
theorem c5_counterexample :
    ("generate_post", "post_to_linkedin") ∉ postWorkflowEdges ∧
    "post_to_linkedin" ∉ postWorkflowNodes ∧
    ("generate_post", langgraphEnd) ∈ postWorkflowEdges := by
  refine ⟨by decide, by decide, by decide⟩

/-- C5 (amended): the single-post sequencer's transition relation is exactly
the strictly linear chain `search → analyze → select_news → generate_post →
END` (the `post_to_linkedin` step is commented out and absent from the
graph), the research/batch variant is exactly `scrape → select_news →
plan_posts → write_post → save_to_database → END`, no step has more than one
outgoing edge, and the entry points are `search` and `scrape`. -/
theorem c5_linear_chains :
    (∀ a b : String, (a, b) ∈ postWorkflowEdges ↔ postChainNext a = some b) ∧
    (∀ a b : String, (a, b) ∈ researchWorkflowEdges ↔ researchChainNext a = some b) ∧
    (∀ a b c : String, (a, b) ∈ postWorkflowEdges → (a, c) ∈ postWorkflowEdges →
      b = c) ∧
    (∀ a b c : String,
      (a, b) ∈ researchWorkflowEdges → (a, c) ∈ researchWorkflowEdges → b = c) ∧
    postWorkflowEntry = "search" ∧ researchWorkflowEntry = "scrape" := by
  have hpost : ∀ a b : String, (a, b) ∈ postWorkflowEdges ↔ postChainNext a = some b := by
    intro a b
    constructor
    · intro h
      simp only [postWorkflowEdges, List.mem_cons, List.not_mem_nil, or_false,
        Prod.mk.injEq] at h
      rcases h with ⟨rfl, rfl⟩ | ⟨rfl, rfl⟩ | ⟨rfl, rfl⟩ | ⟨rfl, rfl⟩ <;> decide
    · intro h
      unfold postChainNext at h
      split_ifs at h with h1 h2 h3 h4 <;>
        (injection h with hb; subst hb; first | subst h1 | subst h2 | subst h3 | subst h4
         decide)
  have hres : ∀ a b : String,
      (a, b) ∈ researchWorkflowEdges ↔ researchChainNext a = some b := by
    intro a b
    constructor
    · intro h
      simp only [researchWorkflowEdges, List.mem_cons, List.not_mem_nil, or_false,
        Prod.mk.injEq] at h
      rcases h with ⟨rfl, rfl⟩ | ⟨rfl, rfl⟩ | ⟨rfl, rfl⟩ | ⟨rfl, rfl⟩ | ⟨rfl, rfl⟩ <;> decide
    · intro h
      unfold researchChainNext at h
      split_ifs at h with h1 h2 h3 h4 h5 <;>
        (injection h with hb; subst hb
         first | subst h1 | subst h2 | subst h3 | subst h4 | subst h5
         decide)
  refine ⟨hpost, hres, ?_, ?_, rfl, rfl⟩
  · intro a b c hb hc
    have h1 := (hpost a b).mp hb
    have h2 := (hpost a c).mp hc
    rw [h1] at h2
    exact Option.some.inj h2
  · intro a b c hb hc
    have h1 := (hres a b).mp hb
    have h2 := (hres a c).mp hc
    rw [h1] at h2
    exact Option.some.inj h2

/-- C5 witness: the amended chain at concrete steps — membership of
`search → analyze` corresponds to the chain successor, and the two edges out
of `generate_post` coincide. -/
theorem c5_linear_chains_witness :
    postChainNext "search" = some "analyze" ∧
    researchChainNext "write_post" = some "save_to_database" ∧
    ("analyze" : String) = "analyze" := by
  refine ⟨(c5_linear_chains.1 "search" "analyze").mp (by decide),
    (c5_linear_chains.2.1 "write_post" "save_to_database").mp (by decide),
    c5_linear_chains.2.2.1 "search" "analyze" "analyze" (by decide) (by decide)⟩

/-- C6: the batch write loop builds the `post_agent_state` dict for a plan
entry and then passes that whole dict — not the entry's title string — as
the `topic` argument of `LinkedInPostAgent.run`, so the topic of the
invocation is the state dict, contradicting both the claim and `run`'s own
`topic: str` annotation.  Evaluated at a plan entry titled `"AI"`. -/
theorem c6_run_argument_is_state_dict :
    (writePostInvocationState "AI").topic =
      .stateDict [] (.str "AI") "search" ∧
    ∀ t : String, (writePostInvocationState t).topic ≠ .str t := by
  refine ⟨rfl, ?_⟩
  intro t h
  simp [writePostInvocationState, postAgentRunInitialState, writePostRunArgument] at h

/-- C10: calling the research agent's `run` with a (non-empty) `topics`
argument permanently overwrites the instance's stored topics: the updated
state keeps the override, that run scrapes with the override, and every
subsequent `run` without a topics argument scrapes with the most recent
override and keeps it stored. -/
theorem c10_run_overwrites_topics :
    ∀ (cfg : ResearchAgentConfig) (ts : List String), ts ≠ [] →
    (researchAgentRun cfg (some ts)).1.topics = ts ∧
    (researchAgentRun cfg (some ts)).2 = ts ∧
    (researchAgentRun (researchAgentRun cfg (some ts)).1 none).2 = ts ∧
    (researchAgentRun (researchAgentRun cfg (some ts)).1 none).1.topics = ts := by
  intro cfg ts h
  simp [researchAgentRun, h]

/-- C10 witness: an agent constructed with the default topics, run once with
`["ml"]`, keeps `["ml"]` and uses it on a later run with no argument. -/
theorem c10_run_overwrites_topics_witness :
    (researchAgentRun (researchAgentInit none) (some ["ml"])).1.topics = ["ml"] ∧
    (researchAgentRun (researchAgentRun (researchAgentInit none) (some ["ml"])).1
      none).2 = ["ml"] := by
  have h := c10_run_overwrites_topics (researchAgentInit none) ["ml"] (by decide)
  exact ⟨h.1, h.2.2.1⟩

/-- C7 counterexample: bullet markers are not normalized to a single glyph —
the replacement literal in the source is the four-character mojibake
`"â€¢ "` (U+00E2 U+20AC U+00A2 and a space, the UTF-8 double-encoding of
`"• "`), so `"- x"` becomes the five-character `"â€¢ x"`, while any
single-glyph normalization would produce a three-character result. -/
theorem c7_counterexample :
    removeMarkdownS "- x" = "â€¢ x" ∧
    ("â€¢ x" : String).length = 5 ∧
    ¬ ("â€¢ x" : String).length = 3 := by
  refine ⟨by decide, by decide, by decide⟩

/-- C7 (amended): the markdown-removal transform satisfies the given
concrete cases — bold markers removed with bold content upper-cased, link
syntax reduced to its visible text, a run of 4 blank lines collapsed to
exactly 1 blank line — and, on concrete instances of the general clauses,
hashtag symbols are preserved, inline code markers are stripped, bullet
markers are replaced by the fixed four-character mojibake prefix `"â€¢ "`
(not a single glyph), numbered-list prefixes are removed, and
leading/trailing whitespace is trimmed. -/
theorem c7_markdown_transforms :
    removeMarkdownS "**hello** world" = "HELLO world" ∧
    removeMarkdownS "[text](http://x)" = "text" ∧
    removeMarkdownS "a\n\n\n\n\nb" = "a\n\nb" ∧
    removeMarkdownS "#ai and x#y" = "#ai and x#y" ∧
    removeMarkdownS "`code` x" = "code x" ∧
    removeMarkdownS "- x" = "â€¢ x" ∧
    removeMarkdownS "* item\n+ other" = "â€¢ item\nâ€¢ other" ∧
    removeMarkdownS "1. item" = "item" ∧
    removeMarkdownS "  hi  " = "hi" := by
  refine ⟨by decide, by decide, by decide, by decide, by decide, by decide,
    by decide, by decide, by decide⟩

theorem runSub_eq_self_of_no_match (t : TryFn) :
    ∀ (fuel : Nat) (prev : Option Char) (s : List Char),
      s.length ≤ fuel → scanHasMatch t fuel prev s = false →
      runSub t fuel prev s = s := by
  intro fuel
  induction fuel with
  | zero => intro prev s _ _; rfl
  | succ n ih =>
    intro prev s hlen hscan
    cases htry : t prev s with
    | some v => simp [scanHasMatch, htry] at hscan
    | none =>
      cases s with
      | nil => simp [runSub, htry]
      | cons c cs =>
        have hscan' : scanHasMatch t n (some c) cs = false := by
          simpa [scanHasMatch, htry] using hscan
        have hlen' : cs.length ≤ n := by
          simp only [List.length_cons] at hlen
          omega
        simp [runSub, htry, ih (some c) cs hlen' hscan']

theorem hashtagTry_spec (prev : Option Char) (s r m rest : List Char)
    (h : hashtagTry prev s = some (r, m, rest)) :
    r = m ∧ s = m ++ rest ∧ m ≠ [] := by
  cases s with
  | nil => simp [hashtagTry] at h
  | cons c cs =>
    simp only [hashtagTry] at h
    split_ifs at h with h1 h2
    simp only [Option.some.injEq, Prod.mk.injEq] at h
    obtain ⟨hr, hm, hrest⟩ := h
    refine ⟨?_, ?_, ?_⟩
    · rw [← hr, ← hm]
    · rw [← hm, ← hrest]
      show c :: cs = '#' :: (cs.takeWhile isWordChar ++ cs.dropWhile isWordChar)
      rw [List.takeWhile_append_dropWhile, h1.1]
    · rw [← hm]
      simp

theorem runSub_hashtag_id :
    ∀ (fuel : Nat) (prev : Option Char) (s : List Char), s.length ≤ fuel →
      runSub hashtagTry fuel prev s = s := by
  intro fuel
  induction fuel with
  | zero => intro prev s _; rfl
  | succ n ih =>
    intro prev s hlen
    cases htry : hashtagTry prev s with
    | none =>
      cases s with
      | nil => simp [runSub, htry]
      | cons c cs =>
        have hlen' : cs.length ≤ n := by
          simp only [List.length_cons] at hlen
          omega
        simp [runSub, htry, ih (some c) cs hlen']
    | some v =>
      obtain ⟨r, m, rest⟩ := v
      obtain ⟨hr, hs, hm⟩ := hashtagTry_spec prev s r m rest htry
      have hrest : rest.length ≤ n := by
        rw [hs, List.length_append] at hlen
        have : 0 < m.length := List.length_pos.mpr hm
        omega
      have hstep : runSub hashtagTry (n + 1) prev s =
          r ++ runSub hashtagTry n (prevAfter m prev) rest := by
        simp [runSub, htry]
      rw [hstep, ih _ rest hrest, hr, ← hs]

theorem prefix_of_newline_run {s : List Char} {k : Nat}
    (h : k ≤ (s.takeWhile fun c => decide (c = '\n')).length) :
    List.replicate k '\n' <+: s := by
  have h1 : (s.takeWhile fun c => decide (c = '\n')) <+: s := List.takeWhile_prefix _
  have hrep : (s.takeWhile fun c => decide (c = '\n')) =
      List.replicate (s.takeWhile fun c => decide (c = '\n')).length '\n' := by
    rw [List.eq_replicate_length]
    intro b hb
    exact of_decide_eq_true
      (List.mem_takeWhile_imp (p := fun c => decide (c = '\n')) hb)
  refine List.IsPrefix.trans ?_ h1
  rw [hrep]
  refine ⟨List.replicate ((s.takeWhile fun c => decide (c = '\n')).length - k) '\n', ?_⟩
  rw [← List.replicate_add]
  congr 1
  omega

theorem collapseGo_eq (s : List Char) :
    ∀ n : Nat, (∀ p, ¬ tripleNewline <+: s.drop p) →
      n + (s.takeWhile fun c => decide (c = '\n')).length ≤ 2 →
      collapseGo n s = List.replicate n '\n' ++ s := by
  induction s with
  | nil =>
    intro n _ hn
    simp only [List.takeWhile_nil, List.length_nil, Nat.add_zero] at hn
    rw [collapseGo, if_neg (by omega)]
    simp
  | cons c cs ih =>
    intro n hno hn
    by_cases hc : c = '\n'
    · subst hc
      rw [collapseGo, if_pos rfl]
      have htw : (('\n' :: cs).takeWhile fun c => decide (c = '\n')) =
          '\n' :: (cs.takeWhile fun c => decide (c = '\n')) := by
        rw [List.takeWhile_cons_of_pos (by simp)]
      rw [htw, List.length_cons] at hn
      have hrec := ih (n + 1) (fun p => by simpa using hno (p + 1)) (by omega)
      rw [hrec, List.replicate_succ']
      simp
    · rw [collapseGo, if_neg hc]
      have hn2 : n ≤ 2 := by omega
      rw [if_neg (by omega)]
      have htw : (cs.takeWhile fun c => decide (c = '\n')).length ≤ 2 := by
        by_contra hgt
        push_neg at hgt
        have hpre : List.replicate 3 '\n' <+: cs :=
          prefix_of_newline_run (by omega)
        exact hno 1 (by simpa [tripleNewline] using hpre)
      have hrec := ih 0 (fun p => by simpa using hno (p + 1)) (by omega)
      rw [hrec]
      simp

theorem collapseNewlines_eq_self {s : List Char}
    (h : findIndex? tripleNewline s = none) : collapseNewlines s = s := by
  have hno := findIndex?_eq_none_iff.mp h
  have htw : (s.takeWhile fun c => decide (c = '\n')).length ≤ 2 := by
    by_contra hgt
    push_neg at hgt
    have hpre : List.replicate 3 '\n' <+: s := prefix_of_newline_run (by omega)
    exact hno 0 (by simpa [tripleNewline] using hpre)
  have := collapseGo_eq s 0 hno (by omega)
  simpa [collapseNewlines] using this

/-- C8: the markdown-removal transform is the identity on every
already-cleaned text — a text in which none of its substitution patterns
matches anywhere, no run of three or more newlines occurs, and no leading or
trailing whitespace remains.  Re-cleaning such a text returns it
unchanged. -/
theorem c8_remove_markdown_id_on_cleaned :
    ∀ t : List Char, cleanedText t → removeMarkdownL t = t := by
  intro t h
  obtain ⟨hb, hi, hl, hbt, hbl, hnum, hnl, hstrip⟩ := h
  have hb' : applySub boldTry t = t :=
    runSub_eq_self_of_no_match boldTry (t.length + 1) none t (Nat.le_succ _) hb
  have hi' : applySub italicTry t = t :=
    runSub_eq_self_of_no_match italicTry (t.length + 1) none t (Nat.le_succ _) hi
  have hl' : applySub linkTry t = t :=
    runSub_eq_self_of_no_match linkTry (t.length + 1) none t (Nat.le_succ _) hl
  have hh' : applySub hashtagTry t = t :=
    runSub_hashtag_id (t.length + 1) none t (Nat.le_succ _)
  have hbt' : applySub backtickTry t = t :=
    runSub_eq_self_of_no_match backtickTry (t.length + 1) none t (Nat.le_succ _) hbt
  have hbl' : applySub bulletTry t = t :=
    runSub_eq_self_of_no_match bulletTry (t.length + 1) none t (Nat.le_succ _) hbl
  have hnum' : applySub numberedTry t = t :=
    runSub_eq_self_of_no_match numberedTry (t.length + 1) none t (Nat.le_succ _) hnum
  unfold removeMarkdownL
  rw [hb', hi', hl', hh', hbt', hbl', hnum', collapseNewlines_eq_self hnl, hstrip]

/-- C8 witness: the cleaned text `"HELLO world\n\n#ai"` is returned
unchanged. -/
theorem c8_remove_markdown_id_on_cleaned_witness :
    cleanedText ("HELLO world\n\n#ai".data) ∧
    removeMarkdownL ("HELLO world\n\n#ai".data) = "HELLO world\n\n#ai".data :=
  ⟨by decide, c8_remove_markdown_id_on_cleaned _ (by decide)⟩

end LinkedInAgent
